import Mathlib

/-!
Shallow embedding of `src/scientificcalculator.py` (class `AdvancedCalculator`).

The calculator controller keeps a textual expression buffer (`operator`), a
memory register, the last evaluated result, an append-only history list, an
angle mode ("rad"/"deg"), a layout flag and the display text.  Python strings
are modelled as `List Char`; Python numeric values as `ℚ`.  The host services
the code delegates to — `eval` on the buffer text and `str` rendering of a
numeric value — are not code of this repository, so every operation that uses
them takes them as explicit function arguments (`ev : Str → Option ℚ` for the
evaluator, where `none` models an exception, and `r : ℚ → Str` for rendering).
Widget and layout manipulation is out of scope and omitted; the display text
is kept because the error contract speaks about it.
-/

namespace SciCalc

/-- Python strings modelled as lists of characters. -/
abbrev Str := List Char

/-- The instance fields of `AdvancedCalculator` that carry calculator
semantics (from `__init__`, lines 36-42, plus the display text). -/
structure CalcState where
  operator : Str
  memory : ℚ
  last_result : ℚ
  history : List Str
  angle_mode : Str
  full_mode : Bool
  display : Str
deriving DecidableEq

/-- Initial state set up by `__init__`: empty buffer, zero memory and last
result, empty history, radian mode, full layout, empty display. -/
def init : CalcState :=
  { operator := []
    memory := 0
    last_result := 0
    history := []
    angle_mode := "rad".toList
    full_mode := true
    display := [] }

/-- `append_to_operator` (lines 266-273): a `%` token is rewritten to
`/100`; any other value is appended verbatim; the display echoes the
buffer. -/
def append_to_operator (value : Str) (s : CalcState) : CalcState :=
  let op := if value = "%".toList then s.operator ++ "/100".toList
            else s.operator ++ value
  { s with operator := op, display := op }

/-- The trigonometric function names special-cased by `append_function`. -/
def trigNames : List Str := ["sin".toList, "cos".toList, "tan".toList]

/-- `append_function` (lines 275-289): trig tokens render as `deg_<f>(` in
degree mode and `math.<f>(` otherwise; `√` renders as `math.sqrt(`; the
remaining functions render as `math.<f>(`. -/
def append_function (func : Str) (s : CalcState) : CalcState :=
  let op :=
    if func ∈ trigNames then
      if s.angle_mode = "deg".toList then
        s.operator ++ "deg_".toList ++ func ++ "(".toList
      else
        s.operator ++ "math.".toList ++ func ++ "(".toList
    else if func = "√".toList then
      s.operator ++ "math.sqrt(".toList
    else
      s.operator ++ "math.".toList ++ func ++ "(".toList
  { s with operator := op, display := op }

/-- `append_constant` (lines 291-294): appends `str(const_value)`. -/
def append_constant (r : ℚ → Str) (const_value : ℚ) (s : CalcState) : CalcState :=
  let op := s.operator ++ r const_value
  { s with operator := op, display := op }

/-- `append_ans` (lines 296-299): appends `str(self.last_result)`. -/
def append_ans (r : ℚ → Str) (s : CalcState) : CalcState :=
  let op := s.operator ++ r s.last_result
  { s with operator := op, display := op }

/-- `clear_all` (lines 301-304): empties the buffer and the display. -/
def clear_all (s : CalcState) : CalcState :=
  { s with operator := [], display := [] }

/-- `clear_entry` (lines 306-309): identical effect to `clear_all`. -/
def clear_entry (s : CalcState) : CalcState :=
  { s with operator := [], display := [] }

/-- `backspace` (lines 311-314): Python `operator[:-1]`, i.e. drop the last
character (a no-op on the empty string). -/
def backspace (s : CalcState) : CalcState :=
  { s with operator := s.operator.dropLast, display := s.operator.dropLast }

/-- `calculate` (lines 316-340): on success, set `last_result`, show the
result, append `f"{operator} = {result}"` to the history and replace the
buffer with `str(result)`; on any exception show `Error` and empty the
buffer. -/
def calculate (ev : Str → Option ℚ) (r : ℚ → Str) (s : CalcState) : CalcState :=
  match ev s.operator with
  | some result =>
      { s with last_result := result
               display := r result
               history := s.history ++ [s.operator ++ " = ".toList ++ r result]
               operator := r result }
  | none =>
      { s with display := "Error".toList, operator := [] }

/-- `memory_clear` (lines 342-345): zero the register, show a message. -/
def memory_clear (s : CalcState) : CalcState :=
  { s with memory := 0, display := "Memory Cleared".toList }

/-- `memory_recall` (lines 347-350): appends `str(self.memory)` to the
buffer. -/
def memory_recall (r : ℚ → Str) (s : CalcState) : CalcState :=
  let op := s.operator ++ r s.memory
  { s with operator := op, display := op }

/-- `memory_add` (lines 352-362): `eval(operator) if operator else 0`;
on success accumulate into the register, show `M: <memory>` and empty the
buffer; on an exception show `Error` and empty the buffer. -/
def memory_add (ev : Str → Option ℚ) (r : ℚ → Str) (s : CalcState) : CalcState :=
  match (if s.operator = [] then some 0 else ev s.operator) with
  | some v =>
      { s with memory := s.memory + v
               display := "M: ".toList ++ r (s.memory + v)
               operator := [] }
  | none =>
      { s with display := "Error".toList, operator := [] }

/-- `memory_subtract` (lines 364-374): like `memory_add` with subtraction. -/
def memory_subtract (ev : Str → Option ℚ) (r : ℚ → Str) (s : CalcState) : CalcState :=
  match (if s.operator = [] then some 0 else ev s.operator) with
  | some v =>
      { s with memory := s.memory - v
               display := "M: ".toList ++ r (s.memory - v)
               operator := [] }
  | none =>
      { s with display := "Error".toList, operator := [] }

/-- `plus_minus` (lines 376-387): nothing on an empty buffer; otherwise strip
a leading `-` or prepend one. -/
def plus_minus (s : CalcState) : CalcState :=
  match s.operator with
  | [] => s
  | c :: t =>
      let op := if c = '-' then t else '-' :: c :: t
      { s with operator := op, display := op }

/-- `toggle_angle_mode` (lines 250-264), widget relabelling omitted. -/
def toggle_angle_mode (s : CalcState) : CalcState :=
  if s.angle_mode = "rad".toList then { s with angle_mode := "deg".toList }
  else { s with angle_mode := "rad".toList }

/-- `toggle_mode` (lines 225-248), layout manipulation omitted. -/
def toggle_mode (s : CalcState) : CalcState :=
  { s with full_mode := !s.full_mode }

/-- One discrete user action, covering every controller operation reachable
from a button or key binding. -/
inductive Op where
  | append (value : Str)
  | appendFunction (func : Str)
  | appendConstant (c : ℚ)
  | appendAns
  | clearAll
  | clearEntry
  | backspaceKey
  | evaluate
  | memClear
  | memRecall
  | memAdd
  | memSub
  | plusMinusKey
  | toggleAngle
  | toggleLayout
deriving DecidableEq

/-- Dispatch of an action to its handler, as the button/key bindings do. -/
def step (ev : Str → Option ℚ) (r : ℚ → Str) : Op → CalcState → CalcState
  | .append v, s => append_to_operator v s
  | .appendFunction f, s => append_function f s
  | .appendConstant c, s => append_constant r c s
  | .appendAns, s => append_ans r s
  | .clearAll, s => clear_all s
  | .clearEntry, s => clear_entry s
  | .backspaceKey, s => backspace s
  | .evaluate, s => calculate ev r s
  | .memClear, s => memory_clear s
  | .memRecall, s => memory_recall r s
  | .memAdd, s => memory_add ev r s
  | .memSub, s => memory_subtract ev r s
  | .plusMinusKey, s => plus_minus s
  | .toggleAngle, s => toggle_angle_mode s
  | .toggleLayout, s => toggle_mode s

/-- Run a sequence of user actions from a state. -/
def run (ev : Str → Option ℚ) (r : ℚ → Str) : List Op → CalcState → CalcState
  | [], s => s
  | o :: os, s => run ev r os (step ev r o s)

/-- The history line written for a successful evaluation of buffer `p.1`
with result `p.2`: the literal text `<buffer> = <rendered result>`. -/
def historyRecord (r : ℚ → Str) (p : Str × ℚ) : Str :=
  p.1 ++ " = ".toList ++ r p.2

/-- The (buffer, result) pair recorded if the action is a successful
press of `=`, and nothing otherwise. -/
def stepEvals (ev : Str → Option ℚ) (o : Op) (s : CalcState) : List (Str × ℚ) :=
  match o with
  | .evaluate =>
      match ev s.operator with
      | some v => [(s.operator, v)]
      | none => []
  | _ => []

/-- All successful evaluations along a run: for each, the buffer at that
moment and the result. -/
def successfulEvals (ev : Str → Option ℚ) (r : ℚ → Str) :
    List Op → CalcState → List (Str × ℚ)
  | [], _ => []
  | o :: os, s => stepEvals ev o s ++ successfulEvals ev r os (step ev r o s)

/-- Two states that agree on every field except possibly the angle mode. -/
def agreeExceptAngle (s t : CalcState) : Prop :=
  s.operator = t.operator ∧ s.memory = t.memory ∧
  s.last_result = t.last_result ∧ s.history = t.history ∧
  s.full_mode = t.full_mode ∧ s.display = t.display

instance (s t : CalcState) : Decidable (agreeExceptAngle s t) := by
  unfold agreeExceptAngle; infer_instance

/-- A host evaluator that always raises: every buffer fails. -/
def evNone : Str → Option ℚ := fun _ => none

/-- A host evaluator that always returns 2. -/
def evTwo : Str → Option ℚ := fun _ => some 2

/-- A concrete rendering function for witnesses. -/
def rZero : ℚ → Str := fun _ => "0".toList

/-- The initial state with `1/0` typed into the buffer. -/
def stOneDivZero : CalcState :=
  { init with operator := "1/0".toList, display := "1/0".toList }

/-- The initial state with `--1` typed into the buffer. -/
def stDoubleNeg : CalcState :=
  { init with operator := "--1".toList, display := "--1".toList }

/-- The initial state with `1` typed into the buffer. -/
def stOne : CalcState :=
  { init with operator := "1".toList, display := "1".toList }

/-- The initial state switched to degree mode. -/
def stDeg : CalcState :=
  { init with angle_mode := "deg".toList }

/-- A single action extends the history by exactly the records of its
successful evaluations (one for a successful `=` press, none otherwise). -/
theorem step_history (ev : Str → Option ℚ) (r : ℚ → Str) (o : Op) (s : CalcState) :
    (step ev r o s).history =
      s.history ++ (stepEvals ev o s).map (historyRecord r) := by
  cases o with
  | evaluate =>
      cases hev : ev s.operator <;>
        simp [step, calculate, stepEvals, historyRecord, hev]
  | append v => simp [step, append_to_operator, stepEvals]
  | appendFunction f => simp [step, append_function, stepEvals]
  | appendConstant c => simp [step, append_constant, stepEvals]
  | appendAns => simp [step, append_ans, stepEvals]
  | clearAll => simp [step, clear_all, stepEvals]
  | clearEntry => simp [step, clear_entry, stepEvals]
  | backspaceKey => simp [step, backspace, stepEvals]
  | memClear => simp [step, memory_clear, stepEvals]
  | memRecall => simp [step, memory_recall, stepEvals]
  | memAdd =>
      simp only [step, memory_add, stepEvals]
      split <;> simp
  | memSub =>
      simp only [step, memory_subtract, stepEvals]
      split <;> simp
  | plusMinusKey =>
      simp only [step, plus_minus, stepEvals]
      split <;> simp
  | toggleAngle =>
      simp only [step, toggle_angle_mode, stepEvals]
      split <;> simp
  | toggleLayout => simp [step, toggle_mode, stepEvals]

/-- Along any run, the history grows by exactly the records of the
successful evaluations performed. -/
theorem run_history (ev : Str → Option ℚ) (r : ℚ → Str) (ops : List Op)
    (s : CalcState) :
    (run ev r ops s).history =
      s.history ++ (successfulEvals ev r ops s).map (historyRecord r) := by
  induction ops generalizing s with
  | nil => simp [run, successfulEvals]
  | cons o os ih =>
      simp [run, successfulEvals, ih (step ev r o s), step_history ev r o s,
        List.append_assoc]

/-- Claim C1: whenever evaluation of the buffer fails, `calculate` shows the
`Error` marker and resets the buffer to the empty string, and the implicit
evaluation inside `memory_add` and `memory_subtract` (which runs only when
the buffer is non-empty) follows the same Error/reset contract. -/
theorem C1_error_reset (ev : Str → Option ℚ) (r : ℚ → Str) (s : CalcState)
    (hfail : ev s.operator = none) :
    ((calculate ev r s).display = "Error".toList ∧
      (calculate ev r s).operator = []) ∧
    (s.operator ≠ [] →
      ((memory_add ev r s).display = "Error".toList ∧
        (memory_add ev r s).operator = []) ∧
      ((memory_subtract ev r s).display = "Error".toList ∧
        (memory_subtract ev r s).operator = [])) := by
  refine ⟨by simp [calculate, hfail], fun hne => ?_⟩
  constructor <;> simp [memory_add, memory_subtract, hne, hfail]

/-- Witness for C1 at the buffer `1/0` under an evaluator that fails. -/
theorem C1_error_reset_witness :
    ((calculate evNone rZero stOneDivZero).display = "Error".toList ∧
      (calculate evNone rZero stOneDivZero).operator = []) ∧
    (stOneDivZero.operator ≠ [] →
      ((memory_add evNone rZero stOneDivZero).display = "Error".toList ∧
        (memory_add evNone rZero stOneDivZero).operator = []) ∧
      ((memory_subtract evNone rZero stOneDivZero).display = "Error".toList ∧
        (memory_subtract evNone rZero stOneDivZero).operator = [])) :=
  C1_error_reset evNone rZero stOneDivZero rfl

/-- Claim C2 fails as stated: appending the `%` token does not concatenate
the text `%` — the code rewrites it to `/100`. -/
theorem C2_percent_counterexample :
    ¬ (append_to_operator ("%".toList) init).operator =
        init.operator ++ "%".toList := by
  decide

/-- Claim C2 (amended): for every token other than `%`, `append` concatenates
exactly that token's text; `%` appends `/100` instead; in every case the
previous buffer contents remain a prefix of the new buffer. -/
theorem C2_append_token (s : CalcState) (value : Str) :
    (value ≠ "%".toList →
      (append_to_operator value s).operator = s.operator ++ value) ∧
    ((append_to_operator ("%".toList) s).operator =
      s.operator ++ "/100".toList) ∧
    (∃ t, (append_to_operator value s).operator = s.operator ++ t) := by
  refine ⟨fun hne => ?_, by simp [append_to_operator], ?_⟩
  · have hne' : value ≠ ['%'] := by simpa using hne
    simp [append_to_operator, hne']
  unfold append_to_operator
  split
  case _ => exact ⟨"/100".toList, rfl⟩
  case _ => exact ⟨value, rfl⟩

/-- Witness for C2 at the `+` token on the initial state. -/
theorem C2_append_token_witness :
    (append_to_operator ("+".toList) init).operator =
      init.operator ++ "+".toList :=
  (C2_append_token init ("+".toList)).1 (by decide)

/-- Claim C3 fails as stated: on the buffer `--1` two sign toggles yield
`1`, not the original text. -/
theorem C3_counterexample :
    ¬ (plus_minus (plus_minus stDoubleNeg)).operator = stDoubleNeg.operator := by
  decide

/-- Claim C3 (amended): for every buffer text that is not exactly `-` and
does not begin with `--`, applying the sign toggle twice in succession
returns the buffer to exactly its original text. -/
theorem C3_toggle_sign_involutive (s : CalcState)
    (h1 : s.operator ≠ ['-'])
    (h2 : s.operator.take 2 ≠ ['-', '-']) :
    (plus_minus (plus_minus s)).operator = s.operator := by
  match hop : s.operator with
  | [] => simp [plus_minus, hop]
  | c :: t =>
      by_cases hc : c = '-'
      · subst hc
        match t with
        | [] => exact absurd hop (hop ▸ h1)
        | d :: t' =>
            have hd : d ≠ '-' := by
              intro hEq
              exact h2 (by simp [hop, hEq])
            simp [plus_minus, hop, hd]
      · simp [plus_minus, hop, hc]

/-- Witness for C3 on the buffer `5+3`. -/
theorem C3_toggle_sign_involutive_witness :
    (plus_minus (plus_minus { init with operator := "5+3".toList })).operator =
      ({ init with operator := "5+3".toList } : CalcState).operator :=
  C3_toggle_sign_involutive { init with operator := "5+3".toList }
    (by decide) (by decide)

/-- Claim C4: starting from an empty history, after a run of actions the
history has exactly one entry per successful evaluation, and the i-th entry
is literally `<buffer at the i-th evaluation> = <that evaluation's rendered
result>`. -/
theorem C4_history_entries (ev : Str → Option ℚ) (r : ℚ → Str)
    (ops : List Op) (s : CalcState) (h : s.history = []) :
    (run ev r ops s).history =
      (successfulEvals ev r ops s).map (historyRecord r) ∧
    (run ev r ops s).history.length = (successfulEvals ev r ops s).length := by
  have hrun := run_history ev r ops s
  rw [h] at hrun
  simp only [List.nil_append] at hrun
  exact ⟨hrun, by rw [hrun, List.length_map]⟩

/-- Witness for C4: typing `1` and pressing `=` once yields the single
history entry `1 = 0` under the constant evaluator and renderer. -/
theorem C4_history_entries_witness :
    (run evTwo rZero [Op.append ("1".toList), Op.evaluate] init).history =
      (successfulEvals evTwo rZero [Op.append ("1".toList), Op.evaluate]
        init).map (historyRecord rZero) ∧
    (run evTwo rZero [Op.append ("1".toList), Op.evaluate] init).history.length =
      (successfulEvals evTwo rZero [Op.append ("1".toList), Op.evaluate]
        init).length :=
  C4_history_entries evTwo rZero [Op.append ("1".toList), Op.evaluate] init rfl

/-- Claim C5: memory recall appends the memory value's text to the buffer;
memory clear zeroes the register; memory add (resp. subtract) evaluates the
buffer — an empty buffer counting as the value zero — accumulates (resp.
decrements) the register by that value and empties the buffer. -/
theorem C5_memory_ops (ev : Str → Option ℚ) (r : ℚ → Str) (s : CalcState)
    (v : ℚ)
    (hv : (if s.operator = [] then some (0 : ℚ) else ev s.operator) = some v) :
    ((memory_recall r s).operator = s.operator ++ r s.memory ∧
      (memory_recall r s).memory = s.memory) ∧
    (memory_clear s).memory = 0 ∧
    ((memory_add ev r s).memory = s.memory + v ∧
      (memory_add ev r s).operator = []) ∧
    ((memory_subtract ev r s).memory = s.memory - v ∧
      (memory_subtract ev r s).operator = []) := by
  refine ⟨⟨rfl, rfl⟩, rfl, ?_, ?_⟩ <;>
    simp [memory_add, memory_subtract, hv]

/-- Witness for C5 on the initial (empty-buffer) state, where the implicit
value is zero. -/
theorem C5_memory_ops_witness :
    ((memory_recall rZero init).operator = init.operator ++ rZero init.memory ∧
      (memory_recall rZero init).memory = init.memory) ∧
    (memory_clear init).memory = 0 ∧
    ((memory_add evTwo rZero init).memory = init.memory + 0 ∧
      (memory_add evTwo rZero init).operator = []) ∧
    ((memory_subtract evTwo rZero init).memory = init.memory - 0 ∧
      (memory_subtract evTwo rZero init).operator = []) :=
  C5_memory_ops evTwo rZero init 0 rfl

/-- Claim C6: a trig token appends the degree-aware name `deg_<f>(` in
degree mode and the native name `math.<f>(` in radian mode; and the angle
mode affects no other operation's behaviour — every action other than a
trig-token insertion maps states agreeing outside the angle mode to states
agreeing outside the angle mode. -/
theorem C6_angle_mode (ev : Str → Option ℚ) (r : ℚ → Str) :
    (∀ f, f ∈ trigNames → ∀ s : CalcState,
      (s.angle_mode = "deg".toList →
        (append_function f s).operator =
          s.operator ++ "deg_".toList ++ f ++ "(".toList) ∧
      (s.angle_mode = "rad".toList →
        (append_function f s).operator =
          s.operator ++ "math.".toList ++ f ++ "(".toList)) ∧
    (∀ o : Op, (∀ f, o = Op.appendFunction f → f ∉ trigNames) →
      ∀ s t : CalcState, agreeExceptAngle s t →
        agreeExceptAngle (step ev r o s) (step ev r o t)) := by
  constructor
  · intro f hf s
    constructor
    · intro hdeg
      simp [append_function, hf, hdeg]
    · intro hrad
      have hne : ¬ s.angle_mode = ['d', 'e', 'g'] := by
        rw [hrad]; decide
      simp [append_function, hf, hne]
  · intro o ho s t hst
    obtain ⟨h1, h2, h3, h4, h5, h6⟩ := hst
    cases o with
    | append v =>
        refine ⟨?_, h2, h3, h4, h5, ?_⟩ <;> simp [step, append_to_operator, h1]
    | appendFunction f =>
        have hf : f ∉ trigNames := ho f rfl
        refine ⟨?_, h2, h3, h4, h5, ?_⟩ <;> simp [step, append_function, hf, h1]
    | appendConstant c =>
        refine ⟨?_, h2, h3, h4, h5, ?_⟩ <;> simp [step, append_constant, h1]
    | appendAns =>
        refine ⟨?_, h2, h3, h4, h5, ?_⟩ <;> simp [step, append_ans, h1, h3]
    | clearAll => exact ⟨rfl, h2, h3, h4, h5, rfl⟩
    | clearEntry => exact ⟨rfl, h2, h3, h4, h5, rfl⟩
    | backspaceKey =>
        refine ⟨?_, h2, h3, h4, h5, ?_⟩ <;> simp [step, backspace, h1]
    | evaluate =>
        simp only [step, calculate, h1]
        cases hev : ev t.operator <;>
          simp [hev, agreeExceptAngle, h1, h2, h3, h4, h5, h6]
    | memClear => exact ⟨h1, rfl, h3, h4, h5, rfl⟩
    | memRecall =>
        refine ⟨?_, h2, h3, h4, h5, ?_⟩ <;> simp [step, memory_recall, h1, h2]
    | memAdd =>
        simp only [step, memory_add, h1, h2]
        cases hop : (if t.operator = [] then some (0 : ℚ) else ev t.operator) <;>
          simp [agreeExceptAngle, h1, h2, h3, h4, h5, h6]
    | memSub =>
        simp only [step, memory_subtract, h1, h2]
        cases hop : (if t.operator = [] then some (0 : ℚ) else ev t.operator) <;>
          simp [agreeExceptAngle, h1, h2, h3, h4, h5, h6]
    | plusMinusKey =>
        simp only [step, plus_minus, h1]
        cases hop : t.operator <;>
          simp [agreeExceptAngle, h1, h2, h3, h4, h5, h6]
    | toggleAngle =>
        simp only [step, toggle_angle_mode]
        constructor
        · split <;> split <;>
            simp [agreeExceptAngle, h1, h2, h3, h4, h5, h6]
        · split <;> split <;>
            simp [agreeExceptAngle, h1, h2, h3, h4, h5, h6]
    | toggleLayout =>
        exact ⟨h1, h2, h3, h4, by simp [step, toggle_mode, h5], h6⟩

/-- Witness for C6: `sin` in degree mode renders `deg_sin(`, and a
backspace on two states differing only in angle mode keeps them agreeing
outside the angle mode. -/
theorem C6_angle_mode_witness :
    (append_function ("sin".toList) stDeg).operator =
      stDeg.operator ++ "deg_".toList ++ "sin".toList ++ "(".toList ∧
    agreeExceptAngle (step evTwo rZero Op.backspaceKey stDeg)
      (step evTwo rZero Op.backspaceKey init) :=
  ⟨((C6_angle_mode evTwo rZero).1 ("sin".toList) (by decide) stDeg).1 rfl,
   (C6_angle_mode evTwo rZero).2 Op.backspaceKey (fun f h => nomatch h)
     stDeg init ⟨rfl, rfl, rfl, rfl, rfl, rfl⟩⟩

/-- Claim C7: clearing the buffer (`C` and `CE`) leaves the memory register
unchanged — memory persists across clears of the buffer. -/
theorem C7_memory_persists (s : CalcState) :
    (clear_all s).memory = s.memory ∧ (clear_entry s).memory = s.memory :=
  ⟨rfl, rfl⟩

/-- Claim C8: the history is append-only — every calculator action either
leaves the history unchanged or extends it at the end. -/
theorem C8_history_append_only (ev : Str → Option ℚ) (r : ℚ → Str)
    (o : Op) (s : CalcState) :
    ∃ t, (step ev r o s).history = s.history ++ t :=
  ⟨(stepEvals ev o s).map (historyRecord r), step_history ev r o s⟩

/-- Claim C9: backspace on an empty buffer is a no-op, and on a non-empty
buffer removes exactly the last character. -/
theorem C9_backspace (s : CalcState) (l : Str) (c : Char) :
    (backspace { s with operator := [] }).operator = [] ∧
    (backspace { s with operator := l ++ [c] }).operator = l := by
  exact ⟨rfl, by simp [backspace]⟩

/-- Claim C10: after a successful evaluation the buffer is replaced by the
rendered result and the last-result register holds that result. -/
theorem C10_result_replaces_buffer (ev : Str → Option ℚ) (r : ℚ → Str)
    (s : CalcState) (v : ℚ) (hv : ev s.operator = some v) :
    (calculate ev r s).operator = r v ∧
    (calculate ev r s).last_result = v := by
  simp [calculate, hv]

/-- Witness for C10 on the buffer `1` under the constant evaluator. -/
theorem C10_result_replaces_buffer_witness :
    (calculate evTwo rZero stOne).operator = rZero 2 ∧
    (calculate evTwo rZero stOne).last_result = 2 :=
  C10_result_replaces_buffer evTwo rZero stOne 2 rfl

end SciCalc
